import Mathlib

/-!
Verification development for the Token Framer module (a Foundry VTT v13
module that composites framed token images and keeps a derived-artifact
cache in sync with token updates).

The JavaScript source is shallowly embedded: pure functions become Lean
functions over `String`/`Nat`/`Int`/`ℚ`, stateful hook handlers become
explicit state-passing functions, and fallible asynchronous operations
take their outcome as an explicit parameter.
-/

namespace TokenFramer

/-! ## String helpers

JavaScript string operations used by the source, modelled over `List Char`.
-/

/-- Whether the second list occurs as an initial run of the first. -/
def listStartsList : List Char → List Char → Bool
  | _, [] => true
  | [], _ :: _ => false
  | a :: as, b :: bs => a = b && listStartsList as bs

/-- Whether the second list occurs contiguously inside the first. -/
def listInList : List Char → List Char → Bool
  | [], needle => needle.isEmpty
  | a :: as, needle => listStartsList (a :: as) needle || listInList as needle

/-- Substring test: `hay.includes(needle)` in JavaScript. -/
def strContains (hay needle : String) : Bool :=
  listInList hay.data needle.data

/-- Chars of `s` after the last `'/'` (all of `s` when there is none).
This is `s.split('/').pop()` from the JavaScript source. -/
def lastSegment (s : String) : String :=
  String.mk ((s.data.reverse.takeWhile (fun c => c ≠ '/')).reverse)

/-- Scan a reversed character list for its first `'.'`; return the
characters strictly before the dot (the reversed extension) and the
characters strictly after it (the reversed stem), or `none` when the
list has no dot. -/
def splitAtFirstDot : List Char → Option (List Char × List Char)
  | [] => none
  | c :: rest =>
    if c = '.' then some ([], rest)
    else (splitAtFirstDot rest).map (fun q => (c :: q.1, q.2))

/-- Strip a trailing filename extension: `s.replace(/\.[^.]+$/, '')` from
the JavaScript source. The regex removes the last dot together with the
(non-empty, dot-free) run of characters following it; a string without a
dot, or ending in a dot, is returned unchanged. -/
def stripExtension (s : String) : String :=
  match splitAtFirstDot s.data.reverse with
  | none => s
  | some (ext, stem) => if ext = [] then s else String.mk stem.reverse

/-- Characters kept by the sanitizer: the JavaScript character class
`[a-zA-Z0-9_-]`. -/
def isSafeChar (c : Char) : Bool :=
  ('a' ≤ c && c ≤ 'z') || ('A' ≤ c && c ≤ 'Z') || ('0' ≤ c && c ≤ '9')
    || c = '_' || c = '-'

/-- Replace every character outside `[a-zA-Z0-9_-]` with `'_'`:
`baseFilename.replace(/[^a-zA-Z0-9_-]/g, '_')` from the source. -/
def sanitizeFilename (s : String) : String :=
  String.mk (s.data.map (fun c => if isSafeChar c then c else '_'))

/-! ## Cache key derivation (`generateCacheKey`, frame-layer.js) -/

/-- Embedding of `generateCacheKey(baseImagePath, id, isPrototype)` from
frame-layer.js: extract the base filename (strip directory and extension),
sanitize it, and assemble `frame_<role>_<id>_<sanitizedFilename>` where the
role tag is `proto` for prototype tokens and `token` otherwise. -/
def generateCacheKey (baseImagePath : String) (id : String)
    (isPrototype : Bool) : String :=
  let baseFilename := stripExtension (lastSegment baseImagePath)
  let sanitizedFilename := sanitizeFilename baseFilename
  let roleTag := if isPrototype then "proto" else "token"
  "frame_" ++ roleTag ++ "_" ++ id ++ "_" ++ sanitizedFilename

example : generateCacheKey "tokens/hero v2.png" "abc123" false
    = "frame_token_abc123_hero_v2" := by decide

example : generateCacheKey "hero.webp" "abc123" true
    = "frame_proto_abc123_hero" := by decide

example : generateCacheKey "art/dragon.tar.gz" "x" false
    = "frame_token_x_dragon_tar" := by decide

example : generateCacheKey "art/noext" "x" false
    = "frame_token_x_noext" := by decide

example : generateCacheKey "art/enddot." "x" false
    = "frame_token_x_enddot_" := by decide

/-! ## Data model

`frameData` flag contents and the per-token module state.  In JavaScript a
missing flag reads as `undefined` and `getFrameData` substitutes `{}`; both
are falsy on every field, which `FrameData.empty` models (`enabled = false`,
`frameImage = ""`).
-/

/-- The `frameData` flag fields the update logic inspects (`enabled`,
`frameImage`); the remaining fields are numeric transform parameters not
read by any update decision. -/
structure FrameData where
  enabled : Bool
  frameImage : String
  maskImage : Option String
  deriving DecidableEq, Repr

/-- The value `getFrameData` yields for a token with no flag: `{}`, every
field falsy. -/
def FrameData.empty : FrameData := ⟨false, "", none⟩

/-- A partial `frameData` object carried inside an update's flags: each
field is either absent or supplies a new value. -/
structure FrameDataPatch where
  enabled : Option Bool
  frameImage : Option String
  maskImage : Option (Option String)
  deriving DecidableEq, Repr

/-- The empty patch `{}` (used when an update carries no `frameData`). -/
def FrameDataPatch.empty : FrameDataPatch := ⟨none, none, none⟩

/-- JavaScript object spread `{ ...currentFrameData, ...newFrameData }`:
fields present in the patch win. -/
def mergeFrameData (cur : FrameData) (p : FrameDataPatch) : FrameData where
  enabled := p.enabled.getD cur.enabled
  frameImage := p.frameImage.getD cur.frameImage
  maskImage := p.maskImage.getD cur.maskImage

/-- The module-relevant state of one token document: its displayed image
(`texture.src`) and the module's flags. -/
structure TokenState where
  textureSrc : String
  originalImage : Option String
  currentCacheKey : Option String
  cachedFramePath : Option String
  frameData : Option FrameData
  deriving DecidableEq, Repr

/-- Embedding of `getFrameData(token)`: the flag value, or `{}` when the
flag is absent. -/
def getFrameDataOf (s : TokenState) : FrameData :=
  s.frameData.getD FrameData.empty

/-! ## Cache folder and artifact paths -/

/-- Path of a stored artifact: `saveToCacheFile` uploads
`<cacheKey>.webp` into the cache folder and the store reports the
resulting path. -/
def savedCachePath (folder key : String) : String :=
  folder ++ "/" ++ key ++ ".webp"

/-- Artifact path with the cache-busting query suffix the module appends:
`cachedPath + "?t=" + Date.now()`. -/
def cacheBustedPath (folder key : String) (now : Nat) : String :=
  savedCachePath folder key ++ "?t=" ++ toString now

/-- The cache-namespace test the source applies to image paths: substring
match against the cache folder in use and against the literal default
folder name `token-framer-cache`. -/
def isCacheNamespacePath (folder p : String) : Bool :=
  strContains p folder || strContains p "token-framer-cache"

/-! ## Frame-layer operations (frame-layer.js)

Asynchronous generation and upload can fail; the embedding takes the
outcome as an explicit boolean or `GenOutcome` parameter.  `now` stands
for `Date.now()` at the moment the cache-busting suffix is appended.
-/

/-- Embedding of `restoreOriginalImage(token)`: if an `originalImage` flag
is recorded and differs from the displayed image, set the displayed image
back to it and null `currentCacheKey`; otherwise do nothing. -/
def restoreOriginalImage (s : TokenState) : TokenState :=
  match s.originalImage with
  | some o =>
    if s.textureSrc ≠ o then
      { s with textureSrc := o, currentCacheKey := none }
    else s
  | none => s

/-- Embedding of `applyFrameToToken(token)`: with the frame disabled or
its image missing, delegate to `restoreOriginalImage`; otherwise resolve
the base image (persisting the current displayed image as `originalImage`
when unset), derive the cache key, regenerate, and on success update the
displayed image to the cache-busted artifact path together with
`currentCacheKey`.  On generation failure the function returns after the
error log, leaving the displayed image untouched. -/
def applyFrameToToken (folder : String) (now : Nat) (genSucceeds : Bool)
    (tokenId : String) (s : TokenState) : TokenState :=
  let fd := getFrameDataOf s
  if !fd.enabled || fd.frameImage = "" then restoreOriginalImage s
  else
    let base := s.originalImage.getD s.textureSrc
    let s1 :=
      match s.originalImage with
      | none => { s with originalImage := some s.textureSrc }
      | some _ => s
    let key := generateCacheKey base tokenId false
    if genSucceeds then
      { s1 with textureSrc := cacheBustedPath folder key now,
                currentCacheKey := some key }
    else s1

/-- Embedding of `generateFrameForPrototype(baseImagePath, frameData,
actorId)`: returns the cache-busted artifact path under a `proto`-role
key, or `none` when the configuration is inert, an argument is missing,
or generation fails. -/
def generateFrameForPrototype (folder : String) (now : Nat)
    (genSucceeds : Bool) (baseImagePath : String) (fd : FrameData)
    (actorId : String) : Option String :=
  if !fd.enabled || fd.frameImage = "" || baseImagePath = "" || actorId = ""
  then none
  else if genSucceeds then
    some (cacheBustedPath folder
      (generateCacheKey baseImagePath actorId true) now)
  else none

/-- Embedding of the prototype-token branch of the Restore button's click
listener (token-config.js): with an actor and a recorded `originalImage`,
restore the prototype texture and delete `frameData`, `originalImage`,
`currentCacheKey` and `cachedFramePath`; otherwise fall back to unsetting
the four flags without touching the texture. -/
def prototypeRestore (hasActor : Bool) (s : TokenState) : TokenState :=
  match hasActor, s.originalImage with
  | true, some o =>
    { textureSrc := o, originalImage := none, currentCacheKey := none,
      cachedFramePath := none, frameData := none }
  | _, _ =>
    { s with frameData := none, originalImage := none,
             currentCacheKey := none, cachedFramePath := none }

/-! ## The update interceptor (preUpdateToken hook, "Stop & Swap") -/

/-- The update payload fields the module reads or writes: the displayed
image, the module's own flags (including the `-=frameData` deletion
marker), and all remaining unrelated fields, kept abstractly as key-value
pairs. -/
structure UpdateChanges where
  textureSrc : Option String
  deleteFrameData : Bool
  frameDataPatch : Option FrameDataPatch
  originalImageFlag : Option String
  currentCacheKeyFlag : Option (Option String)
  otherFields : List (String × String)
  deriving DecidableEq, Repr

/-- Document-side inputs of the hook: ownership, membership in the
module's `UPDATE_LOCKS` set, and the current `frameData` flag. -/
structure DocState where
  isOwner : Bool
  locked : Bool
  frameDataFlag : Option FrameData
  deriving DecidableEq, Repr

/-- Outcome of the `preUpdateToken` hook: `pass` returns `true` and lets
the update commit unmodified; `cancelAndRegenerate` returns `false` after
scheduling `performAsyncFrameUpdate`. -/
inductive HookDecision where
  | pass
  | cancelAndRegenerate
  deriving DecidableEq, Repr

/-- The cache folder name the hook compares against:
`game.settings.get(MODULE_ID, 'cacheFolder') || 'token-framer-cache'`. -/
def hookCacheFolder (cacheFolderSetting : String) : String :=
  if cacheFolderSetting = "" then "token-framer-cache" else cacheFolderSetting

/-- Embedding of the `preUpdateToken` interceptor: pass for non-owners,
for self-issued (locked) writes, for `frameData` deletions, for updates
with no (or an empty) new `texture.src`, for new images already inside
the cache namespace, and for updates that explicitly set
`enabled = false`; cancel and regenerate exactly when the merged
configuration has `enabled` truthy and a non-empty `frameImage`. -/
def preUpdateTokenHook (doc : DocState) (chg : UpdateChanges)
    (cacheFolderSetting : String) : HookDecision :=
  if !doc.isOwner then .pass
  else if doc.locked then .pass
  else if chg.deleteFrameData then .pass
  else
    match chg.textureSrc with
    | none => .pass
    | some newTexture =>
      if newTexture = "" then .pass
      else
        let cacheFolder := hookCacheFolder cacheFolderSetting
        if strContains newTexture cacheFolder
            || strContains newTexture "token-framer-cache" then .pass
        else
          let currentFrameData := doc.frameDataFlag.getD FrameData.empty
          let patch := chg.frameDataPatch.getD FrameDataPatch.empty
          let fd := mergeFrameData currentFrameData patch
          if patch.enabled = some false then .pass
          else if fd.enabled && fd.frameImage ≠ "" then .cancelAndRegenerate
          else .pass

/-- Result of a successful frame generation for the interceptor: the
artifact path and the cache key that produced it. -/
structure FramedResult where
  path : String
  key : String
  deriving DecidableEq, Repr

/-- Outcome of the asynchronous generation inside
`performAsyncFrameUpdate`: success (at some `Date.now()` instant), a null
result, or a thrown error. -/
inductive GenOutcome where
  | success (now : Nat)
  | nullResult
  | throwErr
  deriving DecidableEq, Repr

/-- Modelled from the spec: `getFramedPathForImage` is imported from
frame-layer.js by the interceptor but is not defined in the sources under
src/.  Per spec sections 4.4 and 4.5 it derives the cache key from the
base image and the entity id (instance role), composites and stores the
artifact in the cache folder, and returns the artifact path (with the
cache-busting suffix the module appends to displayed paths) together with
the key; generation failure surfaces as a null result or a thrown
error. -/
def getFramedPathForImage (folder : String) (outcome : GenOutcome)
    (baseImage : String) (tokenId : String) :
    Except Unit (Option FramedResult) :=
  match outcome with
  | .success now =>
    let key := generateCacheKey baseImage tokenId false
    .ok (some ⟨cacheBustedPath folder key now, key⟩)
  | .nullResult => .ok none
  | .throwErr => .error ()

/-- One `document.update(...)` call issued by the controller, with the
transient `tokenFramerIntercepted` call option and whether the document id
was added to `UPDATE_LOCKS` first. -/
structure IssuedUpdate where
  changes : UpdateChanges
  interceptedOption : Bool
  lockAdded : Bool
  deriving DecidableEq, Repr

/-- Embedding of `performAsyncFrameUpdate(document, originalChanges,
baseImage, frameData)`: on a non-null generation result, clone the
original changes, overwrite `texture.src` with the artifact path and the
module flags `originalImage`/`currentCacheKey`, lock, and re-issue with
the `tokenFramerIntercepted` option; on a null result or a thrown error,
lock and re-issue the original changes unmodified.  The returned list
collects the `document.update` calls made. -/
def performAsyncFrameUpdate (folder : String) (outcome : GenOutcome)
    (originalChanges : UpdateChanges) (baseImage : String)
    (tokenId : String) : List IssuedUpdate :=
  match getFramedPathForImage folder outcome baseImage tokenId with
  | .ok (some r) =>
    let newChanges :=
      { originalChanges with
          textureSrc := some r.path,
          originalImageFlag := some baseImage,
          currentCacheKeyFlag := some (some r.key) }
    [⟨newChanges, true, true⟩]
  | .ok none => [⟨originalChanges, false, true⟩]
  | .error _ => [⟨originalChanges, false, true⟩]

/-- Effect of committing an update payload on the module-relevant token
state (the host store merges patches field-wise; a `-=frameData` entry
deletes the flag). -/
def applyUpdate (s : TokenState) (c : UpdateChanges) : TokenState where
  textureSrc := c.textureSrc.getD s.textureSrc
  originalImage :=
    match c.originalImageFlag with
    | some v => some v
    | none => s.originalImage
  currentCacheKey :=
    match c.currentCacheKeyFlag with
    | some v => v
    | none => s.currentCacheKey
  cachedFramePath := s.cachedFramePath
  frameData :=
    if c.deleteFrameData then none
    else
      match c.frameDataPatch with
      | some p => some (mergeFrameData (s.frameData.getD FrameData.empty) p)
      | none => s.frameData

/-! ## State invariant (spec section 3)

Displayed image and `currentCacheKey` stay consistent: a displayed cached
artifact comes with the key that produced it, and a displayed base image
comes with no key.
-/

/-- The `EntityFrameState` invariant: either the displayed image is a
cache-busted artifact path and `currentCacheKey` holds the key that
produced it, or the displayed image is outside the cache namespace (a base
image) and `currentCacheKey` is absent. -/
def stateInvariant (folder : String) (s : TokenState) : Prop :=
  (∃ k now, s.textureSrc = cacheBustedPath folder k now
      ∧ s.currentCacheKey = some k)
  ∨ (isCacheNamespacePath folder s.textureSrc = false
      ∧ s.currentCacheKey = none)

/-! ## Notification suppression (frame-layer.js) -/

/-- The value of `ui.notifications.info`: the host's original function or
the module's no-op replacement. -/
inductive NotifFn where
  | original
  | noop
  deriving DecidableEq, Repr

/-- The module's suppression globals plus the patched host function, with
a ghost counter of how many times the restore branch has fired. -/
structure NotifState where
  count : Int
  savedOriginal : Option NotifFn
  infoFn : NotifFn
  restores : Nat
  deriving DecidableEq, Repr

/-- State before any suppression: count zero, nothing saved, the original
notification function installed. -/
def notifInit : NotifState := ⟨0, none, .original, 0⟩

/-- Embedding of `beginNotificationSuppression()`: on the first
suppression save the current function and install the no-op, then
increment the reference count. -/
def beginNotificationSuppression (s : NotifState) : NotifState :=
  let s' :=
    if s.count = 0 then
      { s with savedOriginal := some s.infoFn, infoFn := NotifFn.noop }
    else s
  { s' with count := s'.count + 1 }

/-- Embedding of `endNotificationSuppression()`: decrement the count;
when it reaches zero and a saved function exists, restore it and clear
the saved slot (the ghost `restores` counter records this branch
firing). -/
def endNotificationSuppression (s : NotifState) : NotifState :=
  let s' := { s with count := s.count - 1 }
  if s'.count = 0 then
    match s'.savedOriginal with
    | some f =>
      { s' with infoFn := f, savedOriginal := none,
                restores := s'.restores + 1 }
    | none => s'
  else s'

/-- An upload bracket event: entering `saveToCacheFile` (begin) or its
`finally` block (finish). -/
inductive NotifOp where
  | begin
  | finish
  deriving DecidableEq, Repr

/-- Execute one bracket event. -/
def notifStep (s : NotifState) : NotifOp → NotifState
  | .begin => beginNotificationSuppression s
  | .finish => endNotificationSuppression s

/-- Execute a sequence of bracket events. -/
def runNotifOps (ops : List NotifOp) (s : NotifState) : NotifState :=
  ops.foldl notifStep s

/-- Number of begin events in a trace. -/
def beginCount (ops : List NotifOp) : Nat :=
  ops.countP (fun o => o == NotifOp.begin)

/-- Number of finish events in a trace. -/
def finishCount (ops : List NotifOp) : Nat :=
  ops.countP (fun o => o == NotifOp.finish)

/-! ## Mask luminosity conversion (compositeImage, frame-layer.js) -/

/-- One RGBA pixel of the rasterized mask buffer (byte components). -/
structure MaskPixel where
  r : Nat
  g : Nat
  b : Nat
  a : Nat
  deriving DecidableEq, Repr

/-- The luminosity the mask loop computes:
`pixels[i]*0.299 + pixels[i+1]*0.587 + pixels[i+2]*0.114`, embedded over
the rationals. -/
def luminosity (p : MaskPixel) : ℚ :=
  (299 / 1000 : ℚ) * p.r + (587 / 1000 : ℚ) * p.g + (114 / 1000 : ℚ) * p.b

/-- The alpha written back for one mask pixel:
`Math.min(pixels[i+3], luminosity)`. -/
def maskOutputAlpha (p : MaskPixel) : ℚ :=
  min (p.a : ℚ) (luminosity p)

/-- The whole conversion loop: every fourth byte (each pixel's alpha) is
replaced by `min(originalAlpha, luminosity)`. -/
def convertMaskAlphas (ps : List MaskPixel) : List ℚ :=
  ps.map maskOutputAlpha

/-! ## Batch regeneration (maintenance entry point) -/

/-- One item of the maintenance sweep: a template or a live token, with
its configuration, its resolved recorded base image, and whether its
regeneration fails. -/
structure RegenItem where
  id : String
  isTemplate : Bool
  enabled : Bool
  frameImage : String
  originalImage : String
  regenFails : Bool
  deriving DecidableEq, Repr

/-- Per-item outcome of the sweep. -/
inductive RegenResult where
  | notEligible
  | skippedLostOriginal
  | processed
  | failedLogged
  deriving DecidableEq, Repr

/-- Modelled from the spec: the per-item step of `regenerateAllFrames`
(imported from frame-layer.js by settings.js and by the
`TokenFramerMaintenance` menu, but not defined in the sources under
src/).  Per spec section 4.6: items whose configuration is not enabled
are not eligible; an item whose recorded base image is itself inside the
artifact namespace is skipped with a warning; otherwise
composite+store+update runs, and an individual failure is logged without
aborting the sweep. -/
def regenItemResult (folder : String) (i : RegenItem) : RegenResult :=
  if !(i.enabled && i.frameImage ≠ "") then .notEligible
  else if isCacheNamespacePath folder i.originalImage then
    .skippedLostOriginal
  else if i.regenFails then .failedLogged
  else .processed

/-- Modelled from the spec: `regenerateAllFrames` iterates all known
templates and all known live tokens, applies the per-item step to each,
and reports the count of processed items. -/
def regenerateAllFrames (folder : String)
    (templates liveTokens : List RegenItem) :
    Nat × List (String × RegenResult) :=
  let results := (templates ++ liveTokens).map
    (fun i => (i.id, regenItemResult folder i))
  ((results.filter (fun r => r.2 == RegenResult.processed)).length, results)

/-- Embedding of `TokenFramerMaintenance.render()` (settings variant in
the sources): the privileged maintenance menu immediately runs the batch
regeneration sweep instead of opening a window. -/
def tokenFramerMaintenanceRender (folder : String)
    (templates liveTokens : List RegenItem) :
    Nat × List (String × RegenResult) :=
  regenerateAllFrames folder templates liveTokens

/-! ## Concrete states used by witnesses and counterexamples -/

/-- A concrete update payload used by witnesses: a new base image plus an
unrelated field. -/
def exampleChanges : UpdateChanges :=
  ⟨some "tokens/new-art.png", false, none, none, none, [("x", "12")]⟩

/-- A placed token currently displaying a cached artifact, with a
recorded original image and an enabled configuration. -/
def exampleFramedToken : TokenState where
  textureSrc := "worlds/w/token-framer-cache/frame_token_t1_hero.webp?t=5"
  originalImage := some "tokens/hero.png"
  currentCacheKey := some "frame_token_t1_hero"
  cachedFramePath :=
    some "worlds/w/token-framer-cache/frame_token_t1_hero.webp"
  frameData := some ⟨true, "frames/gold.png", none⟩

/-- A placed token whose recorded original image differs from its
displayed image. -/
def exampleStaleToken : TokenState where
  textureSrc := "tokens/stale.png"
  originalImage := some "tokens/orig.png"
  currentCacheKey := none
  cachedFramePath := none
  frameData := some ⟨true, "frames/gold.png", none⟩

/-- A freshly placed token with no recorded original image and an
enabled configuration. -/
def exampleFreshToken : TokenState where
  textureSrc := "tokens/hero.png"
  originalImage := none
  currentCacheKey := none
  cachedFramePath := none
  frameData := some ⟨true, "frames/gold.png", none⟩

/-- A token document seen from a client that does not own it, with an
enabled configuration and no pending lock. -/
def exampleNonOwnerDoc : DocState :=
  ⟨false, false, some ⟨true, "frames/gold.png", none⟩⟩

/-- The same document seen from its owner. -/
def exampleOwnerDoc : DocState :=
  ⟨true, false, some ⟨true, "frames/gold.png", none⟩⟩

/-- Three maintenance items: an enabled template, an enabled live token
whose regeneration fails, and a disabled token. -/
def exampleRegenTemplates : List RegenItem :=
  [⟨"a", true, true, "frames/gold.png", "tokens/a.png", false⟩]

/-- Live-token items for the maintenance witness. -/
def exampleRegenLive : List RegenItem :=
  [⟨"b", false, true, "frames/gold.png", "tokens/b.png", true⟩,
   ⟨"c", false, false, "", "tokens/c.png", false⟩]

/-! ## Helper lemmas on the string functions -/

theorem listStartsList_append (x y : List Char) :
    listStartsList (x ++ y) x = true := by
  induction x with
  | nil => cases y <;> rfl
  | cons a as ih => simp [listStartsList, ih]

theorem listInList_append_left (x y : List Char) :
    listInList (x ++ y) x = true := by
  cases h : x ++ y with
  | nil =>
    rcases List.append_eq_nil.mp h with ⟨hx, _⟩
    subst hx
    simp [listInList]
  | cons c cs =>
    rw [listInList, ← h, listStartsList_append]
    simp

theorem strContains_append_left (a b : String) :
    strContains (a ++ b) a = true := by
  simpa [strContains, String.data_append] using
    listInList_append_left a.data b.data

theorem takeWhile_append_of_all (p : Char → Bool) (l₁ l₂ : List Char)
    (h : ∀ c ∈ l₁, p c = true) :
    (l₁ ++ l₂).takeWhile p = l₁ ++ l₂.takeWhile p := by
  induction l₁ with
  | nil => simp
  | cons x xs hrec =>
    have hx : p x = true := h x (List.mem_cons_self x xs)
    have hxs : ∀ c ∈ xs, p c = true :=
      fun c hc => h c (List.mem_cons_of_mem x hc)
    simp [hx, hrec hxs]

theorem splitAtFirstDot_no_dot (l : List Char) (h : ∀ c ∈ l, c ≠ '.') :
    splitAtFirstDot l = none := by
  induction l with
  | nil => rfl
  | cons a as ih =>
    have ha : a ≠ '.' := h a (by simp)
    simp only [splitAtFirstDot, if_neg ha]
    simp [ih (fun c hc => h c (by simp [hc]))]

theorem splitAtFirstDot_append_dot (l₁ l₂ : List Char)
    (h : ∀ c ∈ l₁, c ≠ '.') :
    splitAtFirstDot (l₁ ++ '.' :: l₂) = some (l₁, l₂) := by
  induction l₁ with
  | nil => simp [splitAtFirstDot]
  | cons a as ih =>
    have ha : a ≠ '.' := h a (by simp)
    simp only [List.cons_append, splitAtFirstDot, if_neg ha]
    simp [ih (fun c hc => h c (by simp [hc]))]

theorem lastSegment_append_dot_ext (p e : String)
    (he : ∀ c ∈ e.data, c ≠ '/') :
    lastSegment (p ++ "." ++ e) = lastSegment p ++ "." ++ e := by
  apply String.ext
  have hdata : (p ++ "." ++ e).data = p.data ++ '.' :: e.data := by
    rw [String.data_append, String.data_append]
    show p.data ++ ['.'] ++ e.data = p.data ++ '.' :: e.data
    simp
  simp only [lastSegment, hdata, List.reverse_append, List.reverse_cons,
    String.data_append]
  rw [List.append_assoc, List.singleton_append]
  rw [takeWhile_append_of_all _ e.data.reverse _
    (fun c hc => by
      simp only [List.mem_reverse] at hc
      simpa using he c hc)]
  simp [List.takeWhile_cons]

theorem stripExtension_append_ext (p e : String) (he0 : e ≠ "")
    (hed : ∀ c ∈ e.data, c ≠ '.') :
    stripExtension (p ++ "." ++ e) = p := by
  have hdata : (p ++ "." ++ e).data = p.data ++ '.' :: e.data := by
    rw [String.data_append, String.data_append]
    show p.data ++ ['.'] ++ e.data = p.data ++ '.' :: e.data
    simp
  have hrev : (p ++ "." ++ e).data.reverse
      = e.data.reverse ++ '.' :: p.data.reverse := by
    simp [hdata]
  have hsplit : splitAtFirstDot ((p ++ "." ++ e).data.reverse)
      = some (e.data.reverse, p.data.reverse) := by
    rw [hrev]
    exact splitAtFirstDot_append_dot _ _
      (fun c hc => hed c (List.mem_reverse.mp hc))
  have hne : e.data.reverse ≠ [] := by
    intro hnil
    apply he0
    apply String.ext
    simpa using congrArg List.reverse hnil
  rw [stripExtension, hsplit]
  simp only [if_neg hne]
  apply String.ext
  simp

theorem sanitizeFilename_safe (s : String) :
    ∀ c ∈ (sanitizeFilename s).data, isSafeChar c = true := by
  intro c hc
  simp only [sanitizeFilename, List.mem_map] at hc
  obtain ⟨c', _, rfl⟩ := hc
  by_cases h : isSafeChar c' = true
  · simp [h]
  · simp only [h]
    simp only [Bool.not_eq_true] at h
    simp [h]
    decide

theorem generateCacheKey_data (b i : String) (r : Bool) :
    (generateCacheKey b i r).data
      = "frame_".data ++ ((if r then "proto" else "token") : String).data
          ++ "_".data ++ i.data ++ "_".data
          ++ (sanitizeFilename (stripExtension (lastSegment b))).data := by
  simp [generateCacheKey, String.data_append]

/-- C6: `generateCacheKey` is pure and deterministic; changing only the
base filename's extension leaves the key unchanged; changing the
sanitized filename, the entity id, or the role (each with the other
inputs fixed) changes the key; and the output has the shape
`frame_<role>_<entityId>_<sanitizedFilename>` with the sanitized
filename drawn from letters, digits, underscore and hyphen. -/
theorem generateCacheKey_spec :
    (∀ b i r, generateCacheKey b i r = generateCacheKey b i r)
    ∧ (∀ p i r e₁ e₂, e₁ ≠ "" → e₂ ≠ "" →
        (∀ c ∈ e₁.data, c ≠ '.' ∧ c ≠ '/') →
        (∀ c ∈ e₂.data, c ≠ '.' ∧ c ≠ '/') →
        generateCacheKey (p ++ "." ++ e₁) i r
          = generateCacheKey (p ++ "." ++ e₂) i r)
    ∧ (∀ b₁ b₂ i r,
        sanitizeFilename (stripExtension (lastSegment b₁))
          ≠ sanitizeFilename (stripExtension (lastSegment b₂)) →
        generateCacheKey b₁ i r ≠ generateCacheKey b₂ i r)
    ∧ (∀ b i₁ i₂ r, i₁ ≠ i₂ →
        generateCacheKey b i₁ r ≠ generateCacheKey b i₂ r)
    ∧ (∀ b i, generateCacheKey b i true ≠ generateCacheKey b i false)
    ∧ (∀ b i r, generateCacheKey b i r
        = "frame_" ++ (if r then "proto" else "token") ++ "_" ++ i ++ "_"
            ++ sanitizeFilename (stripExtension (lastSegment b))
        ∧ ∀ c ∈ (sanitizeFilename (stripExtension (lastSegment b))).data,
            isSafeChar c = true) := by
  refine ⟨fun b i r => rfl, ?_, ?_, ?_, ?_,
    fun b i r => ⟨rfl, sanitizeFilename_safe _⟩⟩
  · intro p i r e₁ e₂ h1 h2 hc1 hc2
    unfold generateCacheKey
    rw [lastSegment_append_dot_ext p e₁ (fun c hc => (hc1 c hc).2),
        lastSegment_append_dot_ext p e₂ (fun c hc => (hc2 c hc).2),
        stripExtension_append_ext _ e₁ h1 (fun c hc => (hc1 c hc).1),
        stripExtension_append_ext _ e₂ h2 (fun c hc => (hc2 c hc).1)]
  · intro b₁ b₂ i r hsan h
    apply hsan
    have hd := congrArg String.data h
    rw [generateCacheKey_data, generateCacheKey_data] at hd
    exact String.ext (List.append_cancel_left hd)
  · intro b i₁ i₂ r hid h
    apply hid
    have hd := congrArg String.data h
    rw [generateCacheKey_data, generateCacheKey_data] at hd
    have h1 := List.append_cancel_right hd
    have h2 := List.append_cancel_right h1
    exact String.ext (List.append_cancel_left h2)
  · intro b i h
    have hd := congrArg String.data h
    rw [generateCacheKey_data, generateCacheKey_data] at hd
    simp only [if_true, if_false] at hd
    have h1 := List.append_cancel_right hd
    have h2 := List.append_cancel_right h1
    have h3 := List.append_cancel_right h2
    have h4 := List.append_cancel_right h3
    have h5 := List.append_cancel_left h4
    exact absurd h5 (by decide)

/-- Witness for the cache-key algebra at concrete inputs: swapping the
extension `png`/`webp` keeps the key; changing the filename, the id, or
the role changes it. -/
theorem generateCacheKey_spec_witness :
    generateCacheKey ("tokens/hero" ++ "." ++ "png") "a1" false
      = generateCacheKey ("tokens/hero" ++ "." ++ "webp") "a1" false
    ∧ generateCacheKey "art/hero.png" "a1" false
        ≠ generateCacheKey "art/mage.png" "a1" false
    ∧ generateCacheKey "art/hero.png" "a1" false
        ≠ generateCacheKey "art/hero.png" "a2" false
    ∧ generateCacheKey "art/hero.png" "a1" true
        ≠ generateCacheKey "art/hero.png" "a1" false :=
  ⟨generateCacheKey_spec.2.1 "tokens/hero" "a1" false "png" "webp"
      (by decide) (by decide) (by decide) (by decide),
   generateCacheKey_spec.2.2.1 "art/hero.png" "art/mage.png" "a1" false
      (by decide),
   generateCacheKey_spec.2.2.2.1 "art/hero.png" "a1" "a2" false (by decide),
   generateCacheKey_spec.2.2.2.2.1 "art/hero.png" "a1"⟩

/-- C10: the custom-mask loop writes back
`min(originalAlpha, 0.299R + 0.587G + 0.114B)` for every pixel; an
all-white fully opaque mask yields alpha 255 everywhere, an all-black
mask yields alpha 0 everywhere, and a white mask at alpha 128 yields
alpha at most 128 everywhere. -/
theorem mask_luminosity_conversion (ps : List MaskPixel) :
    convertMaskAlphas ps
        = ps.map (fun p => min (p.a : ℚ) (luminosity p))
    ∧ ((∀ p ∈ ps, p = ⟨255, 255, 255, 255⟩) →
        ∀ x ∈ convertMaskAlphas ps, x = 255)
    ∧ ((∀ p ∈ ps, p.r = 0 ∧ p.g = 0 ∧ p.b = 0) →
        ∀ x ∈ convertMaskAlphas ps, x = 0)
    ∧ ((∀ p ∈ ps, p = ⟨255, 255, 255, 128⟩) →
        ∀ x ∈ convertMaskAlphas ps, x ≤ 128) := by
  refine ⟨rfl, ?_, ?_, ?_⟩
  · intro hall x hx
    simp only [convertMaskAlphas, List.mem_map] at hx
    obtain ⟨p, hp, rfl⟩ := hx
    rw [hall p hp]
    norm_num [maskOutputAlpha, luminosity]
  · intro hall x hx
    simp only [convertMaskAlphas, List.mem_map] at hx
    obtain ⟨p, hp, rfl⟩ := hx
    obtain ⟨hr, hg, hb⟩ := hall p hp
    have hlum : luminosity p = 0 := by
      simp [luminosity, hr, hg, hb]
    rw [maskOutputAlpha, hlum]
    exact min_eq_right (by positivity)
  · intro hall x hx
    simp only [convertMaskAlphas, List.mem_map] at hx
    obtain ⟨p, hp, rfl⟩ := hx
    rw [hall p hp]
    norm_num [maskOutputAlpha, luminosity]

/-- Witness for the mask conversion on one-pixel buffers: white opaque
maps to 255, black maps to 0, white at alpha 128 stays at most 128. -/
theorem mask_luminosity_conversion_witness :
    (∀ x ∈ convertMaskAlphas [⟨255, 255, 255, 255⟩], x = 255)
    ∧ (∀ x ∈ convertMaskAlphas [⟨0, 0, 0, 77⟩], x = 0)
    ∧ (∀ x ∈ convertMaskAlphas [⟨255, 255, 255, 128⟩], x ≤ 128) :=
  ⟨(mask_luminosity_conversion _).2.1 (by decide),
   (mask_luminosity_conversion _).2.2.1 (by decide),
   (mask_luminosity_conversion _).2.2.2 (by decide)⟩

/-- C2: the interception controller issues exactly one `document.update`
call; on a failed generation (null result or thrown error) it re-issues
the original update unmodified, on success the rewritten replacement, so
an intercepted update is never dropped. -/
theorem interception_reissues_exactly_once (folder : String)
    (outcome : GenOutcome) (c : UpdateChanges) (base id : String) :
    (performAsyncFrameUpdate folder outcome c base id).length = 1
    ∧ (outcome = .nullResult ∨ outcome = .throwErr →
        performAsyncFrameUpdate folder outcome c base id
          = [⟨c, false, true⟩])
    ∧ (∀ now, outcome = .success now →
        performAsyncFrameUpdate folder outcome c base id
          = [⟨{ c with
                  textureSrc := some (cacheBustedPath folder
                    (generateCacheKey base id false) now),
                  originalImageFlag := some base,
                  currentCacheKeyFlag :=
                    some (some (generateCacheKey base id false)) },
                true, true⟩]) := by
  cases outcome <;>
    simp [performAsyncFrameUpdate, getFramedPathForImage]

/-- Witness for C2: a thrown generation error re-issues the original
update unmodified (and issues nothing else). -/
theorem interception_reissues_exactly_once_witness :
    performAsyncFrameUpdate "worlds/w/token-framer-cache" .throwErr
        exampleChanges "tokens/new-art.png" "t1"
      = [⟨exampleChanges, false, true⟩] :=
  (interception_reissues_exactly_once "worlds/w/token-framer-cache"
    .throwErr exampleChanges "tokens/new-art.png" "t1").2.1 (Or.inr rfl)

/-- C3: on successful regeneration the single re-issued update sets the
displayed image to the new artifact path, records `originalImage` as the
intercepted base image and `currentCacheKey` as the newly derived key,
and carries every other field of the original update unchanged. -/
theorem reissued_update_shape (folder : String) (now : Nat)
    (c : UpdateChanges) (base id : String)
    (_hbase : c.textureSrc = some base) :
    ∃ u, performAsyncFrameUpdate folder (.success now) c base id = [u]
      ∧ u.changes.textureSrc = some (cacheBustedPath folder
          (generateCacheKey base id false) now)
      ∧ u.changes.originalImageFlag = some base
      ∧ u.changes.currentCacheKeyFlag
          = some (some (generateCacheKey base id false))
      ∧ u.changes.deleteFrameData = c.deleteFrameData
      ∧ u.changes.frameDataPatch = c.frameDataPatch
      ∧ u.changes.otherFields = c.otherFields
      ∧ u.interceptedOption = true := by
  refine ⟨⟨{ c with
      textureSrc := some (cacheBustedPath folder
        (generateCacheKey base id false) now),
      originalImageFlag := some base,
      currentCacheKeyFlag :=
        some (some (generateCacheKey base id false)) }, true, true⟩,
    ?_, rfl, rfl, rfl, rfl, rfl, rfl, rfl⟩
  simp [performAsyncFrameUpdate, getFramedPathForImage]

/-- Witness for C3 at a concrete successful interception. -/
theorem reissued_update_shape_witness :
    ∃ u, performAsyncFrameUpdate "worlds/w/token-framer-cache"
        (.success 42) exampleChanges "tokens/new-art.png" "t1" = [u]
      ∧ u.changes.textureSrc
          = some (cacheBustedPath "worlds/w/token-framer-cache"
              (generateCacheKey "tokens/new-art.png" "t1" false) 42)
      ∧ u.changes.originalImageFlag = some "tokens/new-art.png"
      ∧ u.changes.currentCacheKeyFlag
          = some (some (generateCacheKey "tokens/new-art.png" "t1" false))
      ∧ u.changes.deleteFrameData = exampleChanges.deleteFrameData
      ∧ u.changes.frameDataPatch = exampleChanges.frameDataPatch
      ∧ u.changes.otherFields = exampleChanges.otherFields
      ∧ u.interceptedOption = true :=
  reissued_update_shape "worlds/w/token-framer-cache" 42 exampleChanges
    "tokens/new-art.png" "t1" rfl

/-- Counterexample to C5: on a placed token with a recorded original
image, `restoreOriginalImage` restores the displayed image and clears
`currentCacheKey`, but leaves the configuration (`frameData`) and the
cached artifact path in place — restore does not clear all frame-state
attributes. -/
theorem restore_leaves_configuration_cex :
    (restoreOriginalImage exampleFramedToken).textureSrc = "tokens/hero.png"
    ∧ (restoreOriginalImage exampleFramedToken).currentCacheKey = none
    ∧ (restoreOriginalImage exampleFramedToken).frameData
        = some ⟨true, "frames/gold.png", none⟩
    ∧ ¬((restoreOriginalImage exampleFramedToken).frameData = none
        ∧ (restoreOriginalImage exampleFramedToken).cachedFramePath
            = none) := by
  decide

/-- C5 amended: with a recorded `originalImage`, the placed-token restore
(`restoreOriginalImage`) sets the displayed image back to it and clears
`currentCacheKey`, leaving `frameData`, `cachedFramePath` and
`originalImage` untouched; the full reset — displayed image restored and
configuration, original image, cache key and cached path all cleared —
happens only on the prototype-token restore path. -/
theorem restore_semantics (s : TokenState) (o : String)
    (h : s.originalImage = some o) :
    (restoreOriginalImage s).textureSrc = o
    ∧ (restoreOriginalImage s).currentCacheKey
        = (if s.textureSrc = o then s.currentCacheKey else none)
    ∧ (restoreOriginalImage s).frameData = s.frameData
    ∧ (restoreOriginalImage s).cachedFramePath = s.cachedFramePath
    ∧ (restoreOriginalImage s).originalImage = some o
    ∧ prototypeRestore true s = ⟨o, none, none, none, none⟩ := by
  unfold restoreOriginalImage prototypeRestore
  rw [h]
  by_cases ht : s.textureSrc = o
  · simp [ht, h]
  · simp [ht, h]

/-- Witness for the amended C5 at the concrete framed token. -/
theorem restore_semantics_witness :
    (restoreOriginalImage exampleFramedToken).textureSrc = "tokens/hero.png"
    ∧ (restoreOriginalImage exampleFramedToken).currentCacheKey
        = (if exampleFramedToken.textureSrc = "tokens/hero.png"
           then exampleFramedToken.currentCacheKey else none)
    ∧ (restoreOriginalImage exampleFramedToken).frameData
        = exampleFramedToken.frameData
    ∧ (restoreOriginalImage exampleFramedToken).cachedFramePath
        = exampleFramedToken.cachedFramePath
    ∧ (restoreOriginalImage exampleFramedToken).originalImage
        = some "tokens/hero.png"
    ∧ prototypeRestore true exampleFramedToken
        = ⟨"tokens/hero.png", none, none, none, none⟩ :=
  restore_semantics exampleFramedToken "tokens/hero.png" rfl

/-- Counterexample to C7: when the recorded `originalImage` differs from
the displayed image, applyFrame followed immediately by restore lands on
the recorded original, not on the pre-applyFrame displayed value. -/
theorem apply_restore_round_trip_cex :
    (restoreOriginalImage (applyFrameToToken "worlds/w/token-framer-cache"
        7 true "t1" exampleStaleToken)).textureSrc
      ≠ exampleStaleToken.textureSrc := by
  decide

/-- C7 amended: `applyFrameToToken` followed immediately by
`restoreOriginalImage` returns the displayed image to its
pre-applyFrame value whenever no original image is recorded yet, or the
recorded original equals the currently displayed image. -/
theorem apply_restore_round_trip (folder : String) (now : Nat) (gen : Bool)
    (id : String) (s : TokenState)
    (h : s.originalImage = none ∨ s.originalImage = some s.textureSrc) :
    (restoreOriginalImage
        (applyFrameToToken folder now gen id s)).textureSrc
      = s.textureSrc := by
  rcases h with h | h <;>
    simp only [applyFrameToToken, restoreOriginalImage, getFrameDataOf, h,
      Option.getD_some, Option.getD_none] <;>
    split_ifs <;>
    (try split) <;> simp_all [apply_ite TokenState.textureSrc]

/-- Counterexample to C1: on a client that does not own the token the
hook passes the update through even though every condition the claim
lists holds (a new non-empty, non-cache image, no explicit disable, no
`frameData` deletion, no self-issued-write lock, and an enabled merged
configuration with a frame image), so the claimed equivalence fails at
this input. -/
theorem preUpdateToken_claim_cex :
    ¬ ((preUpdateTokenHook exampleNonOwnerDoc exampleChanges ""
          = HookDecision.cancelAndRegenerate)
        ↔ (exampleChanges.textureSrc = some "tokens/new-art.png"
          ∧ "tokens/new-art.png" ≠ ""
          ∧ strContains "tokens/new-art.png" (hookCacheFolder "") = false
          ∧ strContains "tokens/new-art.png" "token-framer-cache" = false
          ∧ exampleChanges.deleteFrameData = false
          ∧ (exampleChanges.frameDataPatch.getD FrameDataPatch.empty).enabled
              ≠ some false
          ∧ exampleNonOwnerDoc.locked = false
          ∧ (mergeFrameData
              (exampleNonOwnerDoc.frameDataFlag.getD FrameData.empty)
              (exampleChanges.frameDataPatch.getD
                FrameDataPatch.empty)).enabled = true
          ∧ (mergeFrameData
              (exampleNonOwnerDoc.frameDataFlag.getD FrameData.empty)
              (exampleChanges.frameDataPatch.getD
                FrameDataPatch.empty)).frameImage ≠ "")) := by
  decide

/-- C1 amended: the hook cancels the update and starts regeneration if
and only if, in addition to the claim's conditions, the processing client
owns the token (non-owner clients always pass updates through): the
update carries a non-empty new `texture.src` outside the cache namespace,
does not explicitly disable the configuration or delete `frameData`, the
document carries no self-issued-write lock, and the merged configuration
is enabled with a non-empty frame image. -/
theorem preUpdateToken_cancel_iff (doc : DocState) (chg : UpdateChanges)
    (setting : String) :
    preUpdateTokenHook doc chg setting = .cancelAndRegenerate
      ↔ (doc.isOwner = true ∧ doc.locked = false
          ∧ chg.deleteFrameData = false
          ∧ ∃ t, chg.textureSrc = some t ∧ t ≠ ""
              ∧ strContains t (hookCacheFolder setting) = false
              ∧ strContains t "token-framer-cache" = false
              ∧ (chg.frameDataPatch.getD FrameDataPatch.empty).enabled
                  ≠ some false
              ∧ (mergeFrameData (doc.frameDataFlag.getD FrameData.empty)
                  (chg.frameDataPatch.getD FrameDataPatch.empty)).enabled
                  = true
              ∧ (mergeFrameData (doc.frameDataFlag.getD FrameData.empty)
                  (chg.frameDataPatch.getD FrameDataPatch.empty)).frameImage
                  ≠ "") := by
  rcases doc with ⟨own, lock, fdf⟩
  rcases chg with ⟨ts, del, patch, oif, cckf, other⟩
  unfold preUpdateTokenHook
  cases own <;> cases lock <;> cases del <;>
    simp only [Bool.not_true, Bool.not_false, if_true, if_false,
      Bool.false_eq_true, Bool.true_eq_false, false_and, and_false,
      iff_false, true_and, and_true] <;>
    try simp
  cases ts with
  | none => simp
  | some t =>
    simp only [Option.some.injEq, exists_eq_left']
    split_ifs with h1 h2 h3 h4
    · simp [h1]
    · simp only [Bool.or_eq_true] at h2
      rcases h2 with h2 | h2 <;> simp [h2]
    · simp [h3]
    · simp only [Bool.and_eq_true, decide_eq_true_eq] at h4
      simp only [Bool.or_eq_true, not_or, Bool.not_eq_true] at h2
      simp [h1, h2.1, h2.2, h3, h4.1, h4.2]
    · simp only [Bool.and_eq_true, decide_eq_true_eq, not_and] at h4
      simp only [Bool.or_eq_true, not_or, Bool.not_eq_true] at h2
      constructor
      · intro hfalse
        exact absurd hfalse (by simp)
      · rintro ⟨-, -, -, -, henb, himg⟩
        exact absurd (h4 henb) (by simp [himg])

/-- Witness for the amended C1: for the owning client the same update is
cancelled for regeneration. -/
theorem preUpdateToken_cancel_iff_witness :
    preUpdateTokenHook exampleOwnerDoc exampleChanges ""
      = HookDecision.cancelAndRegenerate :=
  (preUpdateToken_cancel_iff exampleOwnerDoc exampleChanges "").mpr
    ⟨rfl, rfl, rfl, "tokens/new-art.png", rfl, by decide, by decide,
      by decide, by decide, by decide, by decide⟩

/-- C4: each displayed-image-changing operation preserves the
`EntityFrameState` invariant.  `applyFrameToToken` and the controller's
re-issued update leave the displayed image as a cache-busted artifact
path paired with exactly the key that produced it, and
`restoreOriginalImage` leaves a non-cache base image paired with no key;
the artifact path written on success always lies inside the cache
namespace. -/
theorem state_invariant_preserved (folder : String) (now : Nat)
    (gen : Bool) (id : String) (s : TokenState)
    (hinv : stateInvariant folder s)
    (horig : ∀ o, s.originalImage = some o →
        isCacheNamespacePath folder o = false) :
    stateInvariant folder (applyFrameToToken folder now gen id s)
    ∧ stateInvariant folder (restoreOriginalImage s)
    ∧ (∀ (c : UpdateChanges) (base : String) (u : IssuedUpdate) (g : Nat),
        performAsyncFrameUpdate folder (.success g) c base id = [u] →
        stateInvariant folder (applyUpdate s u.changes))
    ∧ (∀ k n, isCacheNamespacePath folder (cacheBustedPath folder k n)
        = true) := by
  have hns : ∀ k n, isCacheNamespacePath folder (cacheBustedPath folder k n)
      = true := by
    intro k n
    have hdata : (cacheBustedPath folder k n).data
        = folder.data ++ ("/" ++ k ++ ".webp" ++ "?t=" ++ toString n).data := by
      simp [cacheBustedPath, savedCachePath, String.data_append]
    unfold isCacheNamespacePath strContains
    rw [hdata, listInList_append_left]
    simp
  have hrestore : stateInvariant folder (restoreOriginalImage s) := by
    cases ho : s.originalImage with
    | none => simpa [restoreOriginalImage, ho] using hinv
    | some o =>
      by_cases ht : s.textureSrc = o
      · simpa [restoreOriginalImage, ho, ht] using hinv
      · have heq : restoreOriginalImage s
            = { s with textureSrc := o, currentCacheKey := none } := by
          simp [restoreOriginalImage, ho, ht]
        rw [heq]
        exact Or.inr ⟨horig o ho, rfl⟩
  refine ⟨?_, hrestore, ?_, hns⟩
  · cases ho : s.originalImage with
    | none =>
      simp only [applyFrameToToken, ho, Option.getD_none]
      split_ifs with h1 h2
      · exact hrestore
      · exact Or.inl ⟨generateCacheKey s.textureSrc id false, now, rfl, rfl⟩
      · rcases hinv with h | h
        · exact Or.inl h
        · exact Or.inr h
    | some o =>
      simp only [applyFrameToToken, ho, Option.getD_some]
      split_ifs with h1 h2
      · exact hrestore
      · exact Or.inl ⟨generateCacheKey o id false, now, rfl, rfl⟩
      · rcases hinv with h | h
        · exact Or.inl h
        · exact Or.inr h
  · intro c base u g hu
    simp only [performAsyncFrameUpdate, getFramedPathForImage,
      List.cons.injEq, and_true] at hu
    rw [← hu]
    exact Or.inl ⟨generateCacheKey base id false, g, rfl, rfl⟩

/-- Witness for C4 on a fresh token with an enabled configuration. -/
theorem state_invariant_preserved_witness :
    stateInvariant "worlds/w/token-framer-cache"
      (applyFrameToToken "worlds/w/token-framer-cache" 7 true "t1"
        exampleFreshToken)
    ∧ stateInvariant "worlds/w/token-framer-cache"
        (restoreOriginalImage exampleFreshToken) :=
  have h := state_invariant_preserved "worlds/w/token-framer-cache" 7 true
    "t1" exampleFreshToken (Or.inr ⟨by decide, rfl⟩)
    (fun o ho => by simp [exampleFreshToken] at ho)
  ⟨h.1, h.2.1⟩

/-- Witness for the amended C7 round trip on a fresh token. -/
theorem apply_restore_round_trip_witness :
    (restoreOriginalImage (applyFrameToToken "worlds/w/token-framer-cache"
        7 true "t1" exampleFreshToken)).textureSrc
      = exampleFreshToken.textureSrc :=
  apply_restore_round_trip "worlds/w/token-framer-cache" 7 true "t1"
    exampleFreshToken (Or.inl rfl)

/-- C8: the maintenance entry point runs the batch sweep; the sweep
iterates every template and every live token (each item receives exactly
one outcome, in order), reports the count of processed items, and an
individual failure never aborts it: every item's outcome is present
regardless of other items' failures, and counts are additive across the
item lists. -/
theorem batch_regeneration_sweep (folder : String)
    (templates live : List RegenItem) :
    tokenFramerMaintenanceRender folder templates live
        = regenerateAllFrames folder templates live
    ∧ (regenerateAllFrames folder templates live).2.map Prod.fst
        = (templates ++ live).map RegenItem.id
    ∧ (∀ i ∈ templates ++ live,
        (i.id, regenItemResult folder i)
          ∈ (regenerateAllFrames folder templates live).2)
    ∧ (regenerateAllFrames folder templates live).1
        = ((templates ++ live).filter
            (fun i => regenItemResult folder i
              == RegenResult.processed)).length
    ∧ (∀ xs ys : List RegenItem,
        (regenerateAllFrames folder xs ys).1
          = (regenerateAllFrames folder xs []).1
            + (regenerateAllFrames folder [] ys).1) := by
  refine ⟨rfl, ?_, ?_, ?_, ?_⟩
  · simp only [regenerateAllFrames, List.map_map, List.map_append]
    rfl
  · intro i hi
    simp only [regenerateAllFrames, List.mem_map]
    exact ⟨i, hi, rfl⟩
  · simp only [regenerateAllFrames]
    rw [List.filter_map, List.length_map]
    rfl
  · intro xs ys
    simp [regenerateAllFrames, List.filter_map, List.filter_append]

/-- Witness for C8: in a sweep over one enabled template, one failing
live token and one disabled token, the failing item still receives its
logged outcome and the processed count matches the filter. -/
theorem batch_regeneration_sweep_witness :
    ((⟨"b", false, true, "frames/gold.png", "tokens/b.png", true⟩
        : RegenItem).id,
      regenItemResult "worlds/w/token-framer-cache"
        ⟨"b", false, true, "frames/gold.png", "tokens/b.png", true⟩)
      ∈ (regenerateAllFrames "worlds/w/token-framer-cache"
          exampleRegenTemplates exampleRegenLive).2
    ∧ (regenerateAllFrames "worlds/w/token-framer-cache"
        exampleRegenTemplates exampleRegenLive).1
      = ((exampleRegenTemplates ++ exampleRegenLive).filter
          (fun i => regenItemResult "worlds/w/token-framer-cache" i
            == RegenResult.processed)).length :=
  ⟨(batch_regeneration_sweep "worlds/w/token-framer-cache"
      exampleRegenTemplates exampleRegenLive).2.2.1 _ (by decide),
   (batch_regeneration_sweep "worlds/w/token-framer-cache"
      exampleRegenTemplates exampleRegenLive).2.2.2.1⟩

/-! ## Notification-suppression reference counting (C9) -/

theorem runNotifOps_append_single (p : List NotifOp) (op : NotifOp)
    (s : NotifState) :
    runNotifOps (p ++ [op]) s = notifStep (runNotifOps p s) op := by
  simp [runNotifOps, List.foldl_append]

theorem notif_take_bridge (t p q : List NotifOp) (h : t = p ++ q)
    (hq : q ≠ []) (hp : p ≠ [])
    (hmid : ∀ n, n < t.length → 0 < n →
        finishCount (t.take n) < beginCount (t.take n)) :
    finishCount p < beginCount p := by
  have hqlen : 0 < q.length := List.length_pos.mpr hq
  have hlt : p.length < t.length := by
    rw [h, List.length_append]
    omega
  have hpos : 0 < p.length := List.length_pos.mpr hp
  have htake : t.take p.length = p := by
    rw [h]
    exact List.take_left _ _
  have hres := hmid p.length hlt hpos
  rwa [htake] at hres

theorem runNotifOps_strict_mid (p : List NotifOp) :
    p ≠ [] →
    (∀ p₁ p₂, p = p₁ ++ p₂ → p₁ ≠ [] →
        finishCount p₁ < beginCount p₁) →
    runNotifOps p notifInit
      = ⟨(beginCount p : Int) - (finishCount p : Int),
          some NotifFn.original, NotifFn.noop, 0⟩ := by
  induction p using List.reverseRecOn with
  | nil => intro hp _; exact absurd rfl hp
  | append_singleton p' op ih =>
    intro _ hpre
    rw [runNotifOps_append_single]
    by_cases hp' : p' = []
    · subst hp'
      cases op with
      | begin => decide
      | finish =>
        exfalso
        have hcnt := hpre [NotifOp.finish] [] (by simp) (by simp)
        revert hcnt
        decide
    · have hpre' : ∀ p₁ p₂, p' = p₁ ++ p₂ → p₁ ≠ [] →
          finishCount p₁ < beginCount p₁ :=
        fun p₁ p₂ hh h1 =>
          hpre p₁ (p₂ ++ [op]) (by rw [hh, List.append_assoc]) h1
      have hrun := ih hp' hpre'
      have hcnt : finishCount p' < beginCount p' := hpre p' [op] rfl hp'
      rw [hrun]
      cases op with
      | begin =>
        have hne : ((beginCount p' : Int) - (finishCount p' : Int)) ≠ 0 := by
          omega
        simp only [notifStep, beginNotificationSuppression, if_neg hne]
        have hb : beginCount (p' ++ [NotifOp.begin])
            = beginCount p' + 1 := by
          simp [beginCount, List.countP_append]
        have hf : finishCount (p' ++ [NotifOp.begin]) = finishCount p' := by
          simp [finishCount, List.countP_append]
        rw [hb, hf]
        simp only [NotifState.mk.injEq, and_true, true_and]
        omega
      | finish =>
        have hfull := hpre (p' ++ [NotifOp.finish]) [] (by simp) (by simp)
        have hb : beginCount (p' ++ [NotifOp.finish]) = beginCount p' := by
          simp [beginCount, List.countP_append]
        have hf : finishCount (p' ++ [NotifOp.finish])
            = finishCount p' + 1 := by
          simp [finishCount, List.countP_append]
        rw [hb, hf] at hfull ⊢
        have hne : ((beginCount p' : Int) - (finishCount p' : Int)) - 1
            ≠ 0 := by
          omega
        simp only [notifStep, endNotificationSuppression, if_neg hne]
        simp only [NotifState.mk.injEq, and_true, true_and]
        omega

/-- C9: for a trace of N ≥ 1 overlapping upload brackets — one begin and
one finish per upload, with the reference count strictly positive at
every interior point — the notification function is the no-op
replacement at every interior point with zero restores (so the first
begin replaced it and no earlier finish restored it), and after the last
finish the saved original is back in place with the restore branch having
fired exactly once. -/
theorem notification_suppression_refcount (t : List NotifOp) (N : Nat)
    (hN : 1 ≤ N) (hB : beginCount t = N) (hE : finishCount t = N)
    (hmid : ∀ n, n < t.length → 0 < n →
        finishCount (t.take n) < beginCount (t.take n)) :
    runNotifOps t notifInit = ⟨0, none, NotifFn.original, 1⟩
    ∧ (∀ n, n < t.length → 0 < n →
        (runNotifOps (t.take n) notifInit).infoFn = NotifFn.noop
        ∧ (runNotifOps (t.take n) notifInit).restores = 0) := by
  constructor
  · obtain ht | ⟨t', op, ht⟩ := List.eq_nil_or_concat t
    · subst ht
      simp [beginCount] at hB
      omega
    · rw [List.concat_eq_append] at ht
      subst ht
      have ht' : t' ≠ [] := by
        intro h0
        subst h0
        cases op <;>
          simp [beginCount, finishCount] at hB hE <;>
          omega
      have hpre' : ∀ p₁ p₂, t' = p₁ ++ p₂ → p₁ ≠ [] →
          finishCount p₁ < beginCount p₁ := by
        intro p₁ p₂ hh h1
        exact notif_take_bridge (t' ++ [op]) p₁ (p₂ ++ [op])
          (by rw [hh, List.append_assoc]) (by simp) h1 hmid
      have hrun := runNotifOps_strict_mid t' ht' hpre'
      have hcnt : finishCount t' < beginCount t' :=
        hpre' t' [] (by simp) ht'
      cases op with
      | begin =>
        exfalso
        have hb : beginCount (t' ++ [NotifOp.begin])
            = beginCount t' + 1 := by
          simp [beginCount, List.countP_append]
        have hf : finishCount (t' ++ [NotifOp.begin])
            = finishCount t' := by
          simp [finishCount, List.countP_append]
        rw [hb] at hB
        rw [hf] at hE
        omega
      | finish =>
        rw [runNotifOps_append_single, hrun]
        have hb : beginCount (t' ++ [NotifOp.finish]) = beginCount t' := by
          simp [beginCount, List.countP_append]
        have hf : finishCount (t' ++ [NotifOp.finish])
            = finishCount t' + 1 := by
          simp [finishCount, List.countP_append]
        rw [hb] at hB
        rw [hf] at hE
        have hzero : ((beginCount t' : Int) - (finishCount t' : Int)) - 1
            = 0 := by
          omega
        simp [notifStep, endNotificationSuppression, hzero]
  · intro n hlt hpos
    have hp : t.take n ≠ [] := by
      apply List.length_pos.mp
      rw [List.length_take]
      omega
    have hpre' : ∀ p₁ p₂, t.take n = p₁ ++ p₂ → p₁ ≠ [] →
        finishCount p₁ < beginCount p₁ := by
      intro p₁ p₂ hh h1
      have hdrop : t.drop n ≠ [] := by
        apply List.length_pos.mp
        rw [List.length_drop]
        omega
      refine notif_take_bridge t p₁ (p₂ ++ t.drop n) ?_ (by simp [hdrop])
        h1 hmid
      have hsplit := List.take_append_drop n t
      rw [hh, List.append_assoc] at hsplit
      exact hsplit.symm
    have hrun := runNotifOps_strict_mid (t.take n) hp hpre'
    rw [hrun]
    exact ⟨rfl, rfl⟩

/-- Witness for C9: two overlapping uploads (begin, begin, finish,
finish) keep the no-op installed with zero restores at every interior
point, and end with the original function restored exactly once. -/
theorem notification_suppression_refcount_witness :
    runNotifOps [NotifOp.begin, NotifOp.begin, NotifOp.finish,
        NotifOp.finish] notifInit
      = ⟨0, none, NotifFn.original, 1⟩
    ∧ (∀ n, n < ([NotifOp.begin, NotifOp.begin, NotifOp.finish,
          NotifOp.finish] : List NotifOp).length → 0 < n →
        (runNotifOps (([NotifOp.begin, NotifOp.begin, NotifOp.finish,
            NotifOp.finish] : List NotifOp).take n) notifInit).infoFn
          = NotifFn.noop
        ∧ (runNotifOps (([NotifOp.begin, NotifOp.begin, NotifOp.finish,
            NotifOp.finish] : List NotifOp).take n) notifInit).restores
          = 0) :=
  notification_suppression_refcount
    [NotifOp.begin, NotifOp.begin, NotifOp.finish, NotifOp.finish] 2
    (by decide) (by decide) (by decide) (by decide)

end TokenFramer
